import Mathlib

/-!
Verification of the AIR interpreter core against its specification.

Each component of the interpreter that the checked properties touch is
shallowly embedded: Rust functions become Lean functions, in-place
mutation becomes explicit state passing, fallible operations return
`Except`. Data types whose declarations live outside the provided
sources (the trace data model, sliders, streams) are reconstructed from
the data-model section of the specification; every operation is
translated from the corresponding Rust function.
-/

set_option maxRecDepth 2048

/-! ## JSON values

`JValue` mirrors `serde_json::Value` as used by the interpreter: JSON
values held immutably and compared structurally. Numbers are modelled
as integers: no checked property depends on numeric payloads.
-/

inductive JValue where
  | null : JValue
  | bool (b : Bool) : JValue
  | num (n : Int) : JValue
  | str (s : String) : JValue
  | arr (items : List JValue) : JValue
  | obj (fields : List (String × JValue)) : JValue

mutual

/-- Structural equality test on JSON values, mirroring the derived
`PartialEq` of `serde_json::Value`. -/
def JValue.beq : JValue → JValue → Bool
  | .null, .null => true
  | .bool a, .bool b => a == b
  | .num a, .num b => a == b
  | .str a, .str b => a == b
  | .arr as, .arr bs => JValue.beqList as bs
  | .obj as, .obj bs => JValue.beqFields as bs
  | _, _ => false

def JValue.beqList : List JValue → List JValue → Bool
  | [], [] => true
  | a :: as, b :: bs => JValue.beq a b && JValue.beqList as bs
  | _, _ => false

def JValue.beqFields : List (String × JValue) → List (String × JValue) → Bool
  | [], [] => true
  | (ka, va) :: as, (kb, vb) :: bs =>
      ka == kb && JValue.beq va vb && JValue.beqFields as bs
  | _, _ => false

end

/-- Security tetraplet from the `polyplets` crate: the provenance
quadruple attached to every value. -/
structure SecurityTetraplet where
  peer_pk : String
  service_id : String
  function_name : String
  json_path : String
deriving DecidableEq

/-! ## Trace data model

Modelled from the spec: the `ExecutedState` sum and its payloads are
declared in the `air-interpreter-data` crate, whose source is not
included; the spec data-model section lists the variants `Par`, `Call`,
`Ap`, `Canon` and `Fold` with the payloads embedded below.
-/

namespace TraceData

/-- Ap result payload: which stream generations absorbed the value. -/
structure ApResult where
  res_generations : List Nat
deriving DecidableEq

/-- Call value as matched by the call merger: a scalar JSON value or a
stream value carrying its content identifier and destination
generation. -/
inductive Value where
  | scalar (v : JValue) : Value
  | stream (v : JValue) (cid : String) (generation : Nat) : Value

/-- Result of a call instruction recorded in the trace. -/
inductive CallResult where
  | requestSentBy (peer_id : String) : CallResult
  | executed (value : Value) : CallResult
  | callServiceFailed (ret_code : Int) (msg : String) : CallResult

/-- One element of an execution trace. -/
inductive ExecutedState where
  | par (left_size : Nat) (right_size : Nat) : ExecutedState
  | call (result : CallResult) : ExecutedState
  | ap (result : ApResult) : ExecutedState
  | canon (cid : String) : ExecutedState
  | fold (lore : List (Nat × Nat × Nat)) : ExecutedState

end TraceData

/-! ## Ap merger (trace-handler crate, `merger/ap_merger.rs`) -/

namespace ApMerger

open TraceData

/-- Result of merging two ap states, from `ap_merger.rs`. -/
inductive MergerApResult where
  | empty : MergerApResult
  | apResult (res_generation : Option Nat) : MergerApResult
deriving DecidableEq

/-- Ap-specific merge failure, from the trace-handler crate. -/
inductive ApResultError where
  | tooManyDstGenerations (result : ApResult) : ApResultError
deriving DecidableEq

/-- Merge failures the ap merger can produce. -/
inductive MergeError where
  | incompatibleStates (prev : Option ExecutedState) (current : Option ExecutedState)
      (expected : String) : MergeError
  | incorrectApResult (e : ApResultError) : MergeError

/-- `to_merger_result` together with the `to_maybe_generation` macro it
expands: zero recorded generations yield no destination generation, one
yields it, more than one is the too-many-generations error. -/
def toMergerResult (ap_result : ApResult) : Except MergeError MergerApResult :=
  match ap_result.res_generations with
  | [] => .ok (.apResult none)
  | [g] => .ok (.apResult (some g))
  | _ => .error (.incorrectApResult (.tooManyDstGenerations ap_result))

/-- `prepare_merge_result` without the position-mapping bookkeeping,
which does not affect the returned merger result. -/
def prepareMergeResult (ap_result : Option ApResult) : Except MergeError MergerApResult :=
  match ap_result with
  | some ap_result => toMergerResult ap_result
  | none => .ok .empty

/-- `try_merge_next_state_as_ap` on the pair of states yielded by the
previous and current sliders. -/
def tryMergeNextStateAsAp (prev_state current_state : Option ExecutedState) :
    Except MergeError MergerApResult :=
  match prev_state, current_state with
  | some (.ap prev_ap), some _ => prepareMergeResult (some prev_ap)
  | some (.ap prev_ap), none => prepareMergeResult (some prev_ap)
  | none, some (.ap _) => prepareMergeResult none
  | none, none => .ok .empty
  | prev_state, current_state => .error (.incompatibleStates prev_state current_state "ap")

end ApMerger

/-! ## Fold FSM interval-length accounting
(`execution_step/trace_handler/state_automata/fold_fsm/size_updater.rs`) -/

namespace FoldFsm

/-- Keeper-level failure raised by a slider operation. -/
inductive KeeperError where
  | setSubtraceLenFailed (requested : Nat) (position : Nat) (trace_len : Nat)
deriving DecidableEq

/-- Modelled from the spec: a trace slider is a bounded cursor
`(buffer_ref, offset, len)` over a trace region; the slider source is
not included. Only the window arithmetic matters here. -/
structure TraceSlider where
  trace_len : Nat
  position : Nat
  interval_len : Nat
deriving DecidableEq

/-- Modelled from the spec: setting a length that exceeds the window is
an uncatchable trace error; otherwise the exposed interval length is
replaced. -/
def TraceSlider.set_interval_len (len : Nat) (s : TraceSlider) :
    Except KeeperError TraceSlider :=
  if s.position + len ≤ s.trace_len then
    .ok { s with interval_len := len }
  else
    .error (.setSubtraceLenFailed len s.position s.trace_len)

/-- The slice of a merge context the size updater touches. -/
structure MergeCtx where
  slider : TraceSlider
deriving DecidableEq

/-- The slice of the data keeper the size updater touches. -/
structure DataKeeper where
  prev_ctx : MergeCtx
  current_ctx : MergeCtx
deriving DecidableEq

/-- State of `IntervalLenUpdater` from `size_updater.rs`. -/
structure IntervalLenUpdater where
  prev_states_seen : Nat
  current_states_seen : Nat
  prev_interval_len : Nat
  current_interval_len : Nat
deriving DecidableEq

/-- `IntervalLenUpdater::new`: remembers both interval lengths and
starts the seen-counters at zero. -/
def IntervalLenUpdater.new (data_keeper : DataKeeper) : IntervalLenUpdater :=
  { prev_states_seen := 0
    current_states_seen := 0
    prev_interval_len := data_keeper.prev_ctx.slider.interval_len
    current_interval_len := data_keeper.current_ctx.slider.interval_len }

/-- `IntervalLenUpdater::update`, translated statement by statement:
the source computes `new_prev_interval` and stores it through
`data_keeper.prev_ctx.slider`, then computes `new_current_interval` and
stores it through `data_keeper.prev_ctx.slider` again; the current
slider is never written. -/
def IntervalLenUpdater.update (self : IntervalLenUpdater) (data_keeper : DataKeeper) :
    Except KeeperError DataKeeper :=
  let new_prev_interval := self.prev_interval_len - self.prev_states_seen
  match data_keeper.prev_ctx.slider.set_interval_len new_prev_interval with
  | .error e => .error e
  | .ok slider1 =>
      let keeper1 : DataKeeper := { data_keeper with prev_ctx := { slider := slider1 } }
      let new_current_interval := self.current_interval_len - self.current_states_seen
      match keeper1.prev_ctx.slider.set_interval_len new_current_interval with
      | .error e => .error e
      | .ok slider2 => .ok { keeper1 with prev_ctx := { slider := slider2 } }

end FoldFsm

/-! ## Call merger (trace-handler crate, `merger/call_merger/utils.rs`) -/

namespace CallMerger

open TraceData

/-- Merge failures, from the in-tree `trace_handler/merger/errors.rs`. -/
inductive MergeError where
  | incompatibleExecutedStates (prev : ExecutedState) (current : ExecutedState) : MergeError
  | incompatibleCallResults (prev : CallResult) (current : CallResult) : MergeError
  | executedTraceTooSmall (actual : Nat) (required : Nat) : MergeError
  | foldPointsToNonCallResult (state : ExecutedState) : MergeError
  | foldIncorrectSubtracesCount (count : Nat) : MergeError
  | keeperError (e : FoldFsm.KeeperError) : MergeError

/-- `CallResultError::not_equal_values` lifted to the merge error for
incompatible call results on two executed values. -/
def notEqualValues (prev_value current_value : Value) : MergeError :=
  .incompatibleCallResults (.executed prev_value) (.executed current_value)

/-- Equality test on call values, mirroring the derived `PartialEq` of
the trace `Value` type: scalars compare their JSON content, stream
values compare content, CID and generation. -/
def valueBeq : Value → Value → Bool
  | .scalar a, .scalar b => JValue.beq a b
  | .stream v1 c1 g1, .stream v2 c2 g2 => JValue.beq v1 v2 && c1 == c2 && g1 == g2
  | _, _ => false

/-- `are_scalars_equal`: full structural comparison of the two values. -/
def areScalarsEqual (prev_value current_value : Value) : Except MergeError Unit :=
  if valueBeq prev_value current_value then .ok ()
  else .error (notEqualValues prev_value current_value)

/-- `are_streams_equal`: values from streams may differ in generation,
only the CIDs are compared. -/
def areStreamsEqual (prev_result_value current_result_value : String)
    (prev_value current_value : Value) : Except MergeError Unit :=
  if prev_result_value == current_result_value then .ok ()
  else .error (notEqualValues prev_value current_value)

/-- `merge_executed`: merging two `Executed` call states. -/
def mergeExecuted (prev_value current_value : Value) : Except MergeError CallResult :=
  match prev_value, current_value with
  | .scalar pv, .scalar cv => do
      let _ ← areScalarsEqual (.scalar pv) (.scalar cv)
      pure (.executed (.scalar pv))
  | .stream pv pr pg, .stream cv cr cg => do
      let _ ← areStreamsEqual pr cr (.stream pv pr pg) (.stream cv cr cg)
      pure (.executed (.stream pv pr pg))
  | p, c => .error (notEqualValues p c)

end CallMerger

/-! ## Catchable and uncatchable execution errors

Modelled from the use sites in the included sources
(`scalar_variables.rs`, `canon.rs`, `prev_result_handler.rs`): the
split error enums themselves are declared in files that are not
included, so only the variants those sources construct are embedded.
-/

namespace ExecErrors

/-- Errors an enclosing xor can consume. -/
inductive CatchableError where
  | variableNotFound (name : String) : CatchableError
  | localServiceError (ret_code : Int) (message : String) : CatchableError
  | streamsForCanonNotFound (name : String) : CatchableError
deriving DecidableEq

/-- Errors that abort the step. -/
inductive UncatchableError where
  | multipleVariablesFound (name : String) : UncatchableError
  | multipleIterableValues (name : String) : UncatchableError
  | foldStateNotFound (name : String) : UncatchableError
  | variableNotFoundByPos (position : Nat) : UncatchableError
deriving DecidableEq

/-- The two-channel execution error sum. -/
inductive ExecutionError where
  | catchable (e : CatchableError) : ExecutionError
  | uncatchable (e : UncatchableError) : ExecutionError
deriving DecidableEq

end ExecErrors

/-! ## Scoped scalar variables
(`execution_step/execution_context/scalar_variables.rs`) -/

namespace ScalarVariables

open ExecErrors

/-- A value aggregate: a JSON result with its provenance tetraplet and
trace position. -/
structure ValueAggregate where
  result : JValue
  tetraplet : SecurityTetraplet
  trace_pos : Nat

/-- A sparse cell of the scalar scope stack: the fold depth the value
was set at, and the value. -/
structure SparseCell where
  position : Nat
  value : ValueAggregate

/-- Modelled from the spec: the fold state bound to an iterator name.
Its internals (iterable plus cursor) are declared in a file that is not
included; only its presence in the iterable map matters here. -/
structure FoldState where
  iterable : List JValue
  cursor : Nat

/-- Pointwise update of a string-keyed map, the extensional effect of a
`HashMap` insert or remove. -/
def updateMap {α : Type} (m : String → Option α) (name : String) (v : Option α) :
    String → Option α :=
  fun n => if n = name then v else m n

/-- The `Scalars` environment: scalar cells per name, iterable values
per name, and the current fold depth. The two hash maps are embedded as
their extensional content. -/
structure Scalars where
  local_values : String → Option (List SparseCell)
  iterable_values : String → Option FoldState
  fold_block_id : Nat

/-- `Scalars::shadowing_allowed`: only inside a fold block. -/
def Scalars.shadowing_allowed (self : Scalars) : Bool :=
  self.fold_block_id ≠ 0

/-- `Scalars::set_value`. Returns the updated environment and, on
success, whether a previous value existed on the same fold block. The
empty-vector fallback of the occupied branch is unreachable: stored
vectors are never empty. -/
def Scalars.set_value (self : Scalars) (name : String) (value : ValueAggregate) :
    Scalars × Except ExecutionError Bool :=
  let shadowing_allowed := self.shadowing_allowed
  match self.local_values name with
  | none =>
      let cell : SparseCell := ⟨self.fold_block_id, value⟩
      ({ self with local_values := updateMap self.local_values name (some [cell]) },
        .ok false)
  | some values =>
      if !shadowing_allowed then
        (self, .error (.uncatchable (.multipleVariablesFound name)))
      else
        match values.getLast? with
        | some last_cell =>
            if last_cell.position = self.fold_block_id then
              ({ self with
                  local_values := updateMap self.local_values name
                    (some (values.dropLast ++ [⟨self.fold_block_id, value⟩])) },
                .ok true)
            else
              ({ self with
                  local_values := updateMap self.local_values name
                    (some (values ++ [⟨self.fold_block_id, value⟩])) },
                .ok false)
        | none =>
            ({ self with
                local_values := updateMap self.local_values name
                  (some [⟨self.fold_block_id, value⟩]) },
              .ok false)

/-- `Scalars::get_value`: the deepest cell for the name, or the
catchable variable-not-found error. The empty-vector fallback is
unreachable: stored vectors are never empty. -/
def Scalars.get_value (self : Scalars) (name : String) :
    Except ExecutionError ValueAggregate :=
  match self.local_values name with
  | some values =>
      match values.getLast? with
      | some cell => .ok cell.value
      | none => .error (.catchable (.variableNotFound name))
  | none => .error (.catchable (.variableNotFound name))

/-- `Scalars::set_iterable_value`: uncatchable if the iterator name is
already bound. -/
def Scalars.set_iterable_value (self : Scalars) (name : String) (fold_state : FoldState) :
    Scalars × Except ExecutionError Unit :=
  match self.iterable_values name with
  | none =>
      ({ self with iterable_values := updateMap self.iterable_values name (some fold_state) },
        .ok ())
  | some _ => (self, .error (.uncatchable (.multipleIterableValues name)))

/-- `Scalars::remove_iterable_value`. -/
def Scalars.remove_iterable_value (self : Scalars) (name : String) : Scalars :=
  { self with iterable_values := updateMap self.iterable_values name none }

/-- `Scalars::meet_scope_start`: entering a fold scope increments the
depth. -/
def Scalars.meet_scope_start (self : Scalars) : Scalars :=
  { self with fold_block_id := self.fold_block_id + 1 }

/-- `Scalars::meet_scope_end`: the depth is decremented first; then for
every name the most recent cell is popped when its position is nonzero
and not below the new depth, and names whose vectors became empty are
removed. -/
def Scalars.meet_scope_end (self : Scalars) : Scalars :=
  let new_id := self.fold_block_id - 1
  { self with
    fold_block_id := new_id
    local_values := fun n =>
      match self.local_values n with
      | none => none
      | some values =>
          let remaining :=
            match values.getLast? with
            | some cell =>
                if cell.position ≠ 0 ∧ cell.position ≥ new_id then values.dropLast
                else values
            | none => values
          if remaining.isEmpty then none else some remaining }

end ScalarVariables

/-! ## Fold over a scalar (`execution_step/air/fold_scalar.rs`) -/

namespace FoldScalarRs

open ScalarVariables
open ExecErrors

/-- The `fold` helper of `fold_scalar.rs`, with the body instruction
embedded as a function from the scalar environment to the environment
and result it produces. `meet_fold_start` and `meet_fold_end` are the
scope operations of the scalar environment (`meet_scope_start` and
`meet_scope_end` in the included `scalar_variables.rs`). The `?` on
`set_iterable_value` returns early, skipping the body and the cleanup;
otherwise the iterator binding is removed and the scope closed no
matter how the body ended. -/
def fold (iterator : String) (fold_state : FoldState)
    (body : Scalars → Scalars × Except ExecutionError Unit)
    (scalars : Scalars) : Scalars × Except ExecutionError Unit :=
  let s1 := scalars.meet_scope_start
  match s1.set_iterable_value iterator fold_state with
  | (s2, .error e) => (s2, .error e)
  | (s2, .ok _) =>
      let br := body s2
      let s4 := br.1.remove_iterable_value iterator
      let s5 := s4.meet_scope_end
      (s5, br.2)

end FoldScalarRs

/-! ## Execution errors and their classification
(`execution_step/errors.rs`) -/

namespace ErrorsRs

/-- A resolved call result as referenced by error payloads; same shape
as a value aggregate. -/
structure ResolvedCallResult where
  result : JValue
  tetraplet : SecurityTetraplet
  trace_pos : Nat

/-- Modelled from the spec: a stream is a list of generations, each an
ordered list of values; the stream source is not included. Only its
presence in error payloads matters here. -/
def StreamPayload : Type := List (List ResolvedCallResult)

/-- Opaque json-path library error carried in payloads. -/
structure JsonPathError where
  message : String

/-- Modelled from the spec: errors bubbled from the trace handler;
the wrapper enum is declared outside the included sources. -/
inductive TraceHandlerError where
  | mergeError (e : CallMerger.MergeError) : TraceHandlerError
  | keeperError (e : FoldFsm.KeeperError) : TraceHandlerError

/-- `ExecutionError` of `errors.rs`, variant for variant. -/
inductive ExecutionError where
  | incorrectCallTriplet : ExecutionError
  | localServiceError (ret_code : Int) (message : String) : ExecutionError
  | variableNotFound (name : String) : ExecutionError
  | multipleVariablesFound (name : String) : ExecutionError
  | jValueJsonPathError (value : JValue) (path : String) (e : JsonPathError) : ExecutionError
  | generationStreamJsonPathError (values : List ResolvedCallResult) (path : String)
      (e : JsonPathError) : ExecutionError
  | streamJsonPathError (stream : StreamPayload) (path : String)
      (e : JsonPathError) : ExecutionError
  | emptyStreamJsonPathError (path : String) : ExecutionError
  | incompatibleJValueType (value : JValue) (expected : String) : ExecutionError
  | incompatibleAValueType (value : String) (expected : String) : ExecutionError
  | multipleValuesInJsonPath (path : String) : ExecutionError
  | foldStateNotFound (name : String) : ExecutionError
  | multipleFoldStates (name : String) : ExecutionError
  | iterableShadowing (name : String) : ExecutionError
  | matchWithoutXorError : ExecutionError
  | mismatchWithoutXorError : ExecutionError
  | flatteningError (value : JValue) : ExecutionError
  | jsonPathVariableTypeError (value : JValue) : ExecutionError
  | traceError (e : TraceHandlerError) : ExecutionError
  | streamDontHaveSuchGeneration (stream : StreamPayload) (generation : Nat) : ExecutionError
  | apResultNotCorrespondToInstr (result : ApMerger.MergerApResult) : ExecutionError

/-- The `Joinable` impl for `ExecutionError`: exactly the
variable-not-found, stream-json-path and empty-stream-json-path
errors. -/
def ExecutionError.is_joinable : ExecutionError → Bool
  | .variableNotFound _ => true
  | .streamJsonPathError _ _ _ => true
  | .emptyStreamJsonPathError _ => true
  | _ => false

/-- The `Catchable` impl for `ExecutionError`: everything except trace
errors. -/
def ExecutionError.is_catchable : ExecutionError → Bool
  | .traceError _ => false
  | _ => true

end ErrorsRs

/-! ## Previous call result handling
(`execution_step/air/call/prev_result_handler.rs`) -/

namespace PrevResultHandler

open TraceData

/-- Host call-service outcome: return code and the raw result string. -/
structure CallServiceResult where
  ret_code : Int
  result : String
deriving DecidableEq

/-- `i32::MAX`. -/
def i32Max : Int := 2147483647

/-- The message built by the f-string of `try_to_service_result` for a
result string that does not deserialize; the display formatting of the
service result and of the serde error are embedded as plain strings. -/
def deserializationErrorMessage (service_result : CallServiceResult) (e : String) : String :=
  "call_service result " ++ service_result.result ++
    " cannot be serialized or deserialized with an error: " ++ e

/-- `try_to_service_result`, with the `serde_json::from_str` JSON
parser passed in as a function (the parser is an external crate): on
parse failure the call-service-failed state with code `i32::MAX` is
appended to the trace via `meet_call_end`, and the catchable
local-service error with the same code and message is raised.
`meet_call_end` is embedded as appending the call state to the output
trace, as the spec describes for the trace handler. -/
def tryToServiceResult (parse : String → Except String JValue)
    (service_result : CallServiceResult) (trace : List ExecutedState) :
    List ExecutedState × Except ExecErrors.ExecutionError JValue :=
  match parse service_result.result with
  | .ok result => (trace, .ok result)
  | .error e =>
      let error_msg := deserializationErrorMessage service_result e
      (trace ++ [.call (.callServiceFailed i32Max error_msg)],
        .error (.catchable (.localServiceError i32Max error_msg)))

end PrevResultHandler

/-! ## Canon instruction (`execution_step/air/canon.rs`) -/

namespace CanonRs

open ScalarVariables
open ExecErrors

/-- Modelled from the spec: a stream is an append-only list of
generations, each generation an ordered list of value aggregates; the
stream source is not included. -/
structure Stream where
  generations : List (List ValueAggregate)

/-- Modelled from the spec: iteration bounded by the last generation,
concatenating the generations in order. -/
def Stream.iterLast (self : Stream) : List ValueAggregate :=
  self.generations.flatten

/-- A canon stream: the frozen values captured from a stream. -/
structure CanonStream where
  values : List ValueAggregate

/-- `CanonStream::from_stream`. -/
def CanonStream.from_stream (stream : Stream) : CanonStream :=
  ⟨stream.iterLast⟩

/-- The canon AST node, with the peer already resolved to a string (the
resolution helper is outside the included sources). -/
structure AstCanon where
  peer_pk : String
  stream_name : String
  canon_stream_name : String

/-- The part of the execution context the canon instruction touches:
the current peer, the stream map and canon-stream map of the `Streams`
environment (embedded extensionally), the completeness flag and the
next-peers accumulator. -/
structure ExecutionCtx where
  current_peer_id : String
  streams : String → Option Stream
  canon_streams : String → Option CanonStream
  subgraph_complete : Bool
  next_peer_pks : List String

/-- The canon stream paired with the trace positions of its elements,
as produced by `create_canon_stream_from_name`. -/
structure StreamWithPositions where
  canon_stream : CanonStream
  stream_elements_pos : List Nat

/-- `create_canon_stream_from_name`: looks the stream up by name; a
missing stream is the catchable streams-for-canon-not-found error,
otherwise the stream is frozen and its element positions collected. -/
def createCanonStreamFromName (stream_name : String) (exec_ctx : ExecutionCtx) :
    Except ExecutionError StreamWithPositions :=
  match exec_ctx.streams stream_name with
  | none => .error (.catchable (.streamsForCanonNotFound stream_name))
  | some stream =>
      .ok ⟨CanonStream.from_stream stream, (stream.iterLast).map (·.trace_pos)⟩

/-- `epilog`: stores the canon stream under the canon name and records
the canon result (the element positions) in the trace; `meet_canon_end`
is embedded as appending to the list of emitted canon results. -/
def epilog (canon_stream_name : String) (swp : StreamWithPositions)
    (exec_ctx : ExecutionCtx) (canon_trace : List (List Nat)) :
    ExecutionCtx × List (List Nat) :=
  ({ exec_ctx with
      canon_streams :=
        updateMap exec_ctx.canon_streams canon_stream_name (some swp.canon_stream) },
    canon_trace ++ [swp.stream_elements_pos])

/-- `handle_unseen_canon`: on a foreign peer the instruction defers
(incomplete subgraph, peer queued); on the named peer the stream is
frozen by `create_canon_stream_from_name` and stored by `epilog`. -/
def handleUnseenCanon (ast_canon : AstCanon) (exec_ctx : ExecutionCtx)
    (canon_trace : List (List Nat)) :
    ExecutionCtx × List (List Nat) × Except ExecutionError Unit :=
  let peer_id := ast_canon.peer_pk
  if exec_ctx.current_peer_id ≠ peer_id then
    ({ exec_ctx with
        subgraph_complete := false
        next_peer_pks := exec_ctx.next_peer_pks ++ [peer_id] },
      canon_trace, .ok ())
  else
    match createCanonStreamFromName ast_canon.stream_name exec_ctx with
    | .error e => (exec_ctx, canon_trace, .error e)
    | .ok swp =>
        let ec := epilog ast_canon.canon_stream_name swp exec_ctx canon_trace
        (ec.1, ec.2, .ok ())

end CanonRs

/-! ## CID store merging (`interpreter-data/src/cid_store.rs`) -/

namespace CidStoreRs

/-- A CID-to-value store, embedded as the extensional content of the
hash map: an association list with unique keys, looked up from the
front. -/
def CidStore (Val : Type) : Type := List (String × Val)

/-- `CidStore::get`. -/
def CidStore.get {Val : Type} (self : CidStore Val) (cid : String) : Option Val :=
  List.lookup cid self

/-- One `HashMap::insert`: replace an existing binding or append a new
one. -/
def hashInsert {Val : Type} (m : List (String × Val)) (cid : String) (val : Val) :
    List (String × Val) :=
  if (List.lookup cid m).isSome then
    m.map (fun p => if p.1 = cid then (cid, val) else p)
  else
    m ++ [(cid, val)]

/-- The CID tracker accumulating values during a step. -/
structure CidTracker (Val : Type) where
  cids : List (String × Val)

/-- `CidTracker::from_cid_stores`: starts from the previous store and
inserts every entry of the current store over it. -/
def CidTracker.from_cid_stores {Val : Type} (prev_cid_map current_cid_map : CidStore Val) :
    CidTracker Val :=
  ⟨current_cid_map.foldl (fun cids p => hashInsert cids p.1 p.2) prev_cid_map⟩

/-- `CidTracker::get`. -/
def CidTracker.get {Val : Type} (self : CidTracker Val) (cid : String) : Option Val :=
  List.lookup cid self.cids

end CidStoreRs

/-! ## Theorems -/

mutual

theorem JValue.eq_of_beq : ∀ a b : JValue, JValue.beq a b = true → a = b
  | .null, .null, _ => rfl
  | .bool a, .bool b, h => by
      simp only [JValue.beq, beq_iff_eq] at h
      rw [h]
  | .num a, .num b, h => by
      simp only [JValue.beq, beq_iff_eq] at h
      rw [h]
  | .str a, .str b, h => by
      simp only [JValue.beq, beq_iff_eq] at h
      rw [h]
  | .arr as, .arr bs, h => by
      rw [JValue.eqList_of_beq as bs (by simpa [JValue.beq] using h)]
  | .obj as, .obj bs, h => by
      rw [JValue.eqFields_of_beq as bs (by simpa [JValue.beq] using h)]

theorem JValue.eqList_of_beq : ∀ as bs : List JValue, JValue.beqList as bs = true → as = bs
  | [], [], _ => rfl
  | a :: as, b :: bs, h => by
      simp only [JValue.beqList, Bool.and_eq_true] at h
      rw [JValue.eq_of_beq a b h.1, JValue.eqList_of_beq as bs h.2]

theorem JValue.eqFields_of_beq :
    ∀ as bs : List (String × JValue), JValue.beqFields as bs = true → as = bs
  | [], [], _ => rfl
  | (ka, va) :: as, (kb, vb) :: bs, h => by
      simp only [JValue.beqFields, Bool.and_eq_true, beq_iff_eq] at h
      rw [h.1.1, JValue.eq_of_beq va vb h.1.2, JValue.eqFields_of_beq as bs h.2]

end

mutual

theorem JValue.beq_refl : ∀ a : JValue, JValue.beq a a = true
  | .null => rfl
  | .bool a => by simp [JValue.beq]
  | .num a => by simp [JValue.beq]
  | .str a => by simp [JValue.beq]
  | .arr as => by simpa [JValue.beq] using JValue.beqList_refl as
  | .obj as => by simpa [JValue.beq] using JValue.beqFields_refl as

theorem JValue.beqList_refl : ∀ as : List JValue, JValue.beqList as as = true
  | [] => rfl
  | a :: as => by
      simp only [JValue.beqList, Bool.and_eq_true]
      exact ⟨JValue.beq_refl a, JValue.beqList_refl as⟩

theorem JValue.beqFields_refl : ∀ as : List (String × JValue), JValue.beqFields as as = true
  | [] => rfl
  | (ka, va) :: as => by
      simp only [JValue.beqFields, Bool.and_eq_true, beq_self_eq_true, true_and]
      exact ⟨JValue.beq_refl va, JValue.beqFields_refl as⟩

end

/-- C1 counterexample: with a previous `Ap` state recording generation 1
and a current `Ap` state recording generation 2, the two sides disagree
on `res_generations`, yet the merge succeeds and returns the previous
generation. The claim states that such a disagreement is an error. -/
theorem c1_counterexample :
    ([1] : List Nat) ≠ [2] ∧
      ApMerger.tryMergeNextStateAsAp
          (some (.ap ⟨[1]⟩)) (some (.ap ⟨[2]⟩)) =
        .ok (.apResult (some 1)) := by
  constructor
  · decide
  · rfl

/-- C1 amended: when both sliders yield a state and the previous one is
an `Ap`, the merge uses only the previous ap result and never inspects
the current state (so no agreement on `res_generations` is checked); a
state missing on the current side is tolerated with the previous ap
result used; a missing previous state with a current `Ap` is tolerated
but yields the empty result, discarding the current ap result. The
merge of a present previous `Ap` fails only when its `res_generations`
holds more than one generation. -/
theorem c1_ap_merger_amended :
    (∀ prev_ap : TraceData.ApResult, ∀ s : TraceData.ExecutedState,
        ApMerger.tryMergeNextStateAsAp (some (.ap prev_ap)) (some s) =
          ApMerger.toMergerResult prev_ap) ∧
    (∀ prev_ap : TraceData.ApResult,
        ApMerger.tryMergeNextStateAsAp (some (.ap prev_ap)) none =
          ApMerger.toMergerResult prev_ap) ∧
    (∀ cur_ap : TraceData.ApResult,
        ApMerger.tryMergeNextStateAsAp none (some (.ap cur_ap)) =
          .ok .empty) ∧
    (ApMerger.toMergerResult ⟨[]⟩ = .ok (.apResult none)) ∧
    (∀ g : Nat, ApMerger.toMergerResult ⟨[g]⟩ = .ok (.apResult (some g))) ∧
    (∀ g1 g2 : Nat, ∀ rest : List Nat,
        ApMerger.toMergerResult ⟨g1 :: g2 :: rest⟩ =
          .error (.incorrectApResult (.tooManyDstGenerations ⟨g1 :: g2 :: rest⟩))) := by
  refine ⟨fun prev_ap s => rfl, fun prev_ap => rfl, fun cur_ap => rfl, rfl,
    fun g => rfl, fun g1 g2 rest => rfl⟩

/-- Bridge between the JSON equality test and propositional equality. -/
theorem JValue.beq_eq_true_iff (a b : JValue) : JValue.beq a b = true ↔ a = b :=
  ⟨JValue.eq_of_beq a b, fun h => h ▸ JValue.beq_refl a⟩

/-- C2: the interval-length update after a fold iteration is evaluated
at a concrete state: previous interval length 10 with 3 states seen on
prev, current interval length 5 with 1 state seen on current. The
specified behaviour is a prev interval of 10 - 3 = 7 and a current
interval of 5 - 1 = 4; the source instead writes the current-side
result 4 into the prev slider (its second `set_interval_len` call
addresses `prev_ctx` again) and never touches the current slider, which
stays at 5. -/
theorem c2_interval_len_update_eval :
    FoldFsm.IntervalLenUpdater.update ⟨3, 1, 10, 5⟩ ⟨⟨⟨100, 0, 10⟩⟩, ⟨⟨100, 0, 5⟩⟩⟩ =
      .ok ⟨⟨⟨100, 0, 4⟩⟩, ⟨⟨100, 0, 5⟩⟩⟩ ∧
    (4 : Nat) ≠ 10 - 3 ∧ (5 : Nat) ≠ 5 - 1 := by
  refine ⟨rfl, by decide, by decide⟩

/-- C4 counterexample: a scalar environment at fold depth 2 holds a
single cell for name x set at depth 1. Leaving the scope decrements the
depth to 1; the claim states a cell whose depth equals the new depth is
retained and returned by lookup, but the source removes it (its
condition is `position >= fold_block_id`, not strictly greater), so the
lookup after the scope end fails with variable-not-found. -/
theorem c4_counterexample :
    (ScalarVariables.Scalars.meet_scope_end
        ⟨fun n => if n = "x" then some [⟨1, ⟨.null, ⟨"", "", "", ""⟩, 0⟩⟩] else none,
          fun _ => none, 2⟩).fold_block_id = 1 ∧
    (ScalarVariables.Scalars.meet_scope_end
        ⟨fun n => if n = "x" then some [⟨1, ⟨.null, ⟨"", "", "", ""⟩, 0⟩⟩] else none,
          fun _ => none, 2⟩).local_values "x" = none ∧
    ScalarVariables.Scalars.get_value
        (ScalarVariables.Scalars.meet_scope_end
          ⟨fun n => if n = "x" then some [⟨1, ⟨.null, ⟨"", "", "", ""⟩, 0⟩⟩] else none,
            fun _ => none, 2⟩) "x" =
      .error (.catchable (.variableNotFound "x")) := by
  refine ⟨rfl, ?_, ?_⟩ <;>
    simp [ScalarVariables.Scalars.meet_scope_end, ScalarVariables.Scalars.get_value]

/-- C4 amended: `meet_scope_end` decrements the fold depth and, for
each name, pops the most recent cell exactly when its depth is nonzero
and greater than or equal to the new depth (dropping the name if no
cell remains); a cell at depth zero or strictly below the new depth is
retained and is what a subsequent lookup returns. -/
theorem c4_meet_scope_end_amended
    (s : ScalarVariables.Scalars) (name : String)
    (values : List ScalarVariables.SparseCell) (cell : ScalarVariables.SparseCell)
    (h1 : s.local_values name = some values) (h2 : values.getLast? = some cell) :
    (ScalarVariables.Scalars.meet_scope_end s).fold_block_id = s.fold_block_id - 1 ∧
    ((cell.position ≠ 0 ∧ cell.position ≥ s.fold_block_id - 1) →
        (ScalarVariables.Scalars.meet_scope_end s).local_values name =
          (if values.dropLast.isEmpty then none else some values.dropLast)) ∧
    (¬(cell.position ≠ 0 ∧ cell.position ≥ s.fold_block_id - 1) →
        (ScalarVariables.Scalars.meet_scope_end s).local_values name = some values ∧
        ScalarVariables.Scalars.get_value (ScalarVariables.Scalars.meet_scope_end s) name =
          .ok cell.value) := by
  have hne : values ≠ [] := by
    intro hv
    rw [hv] at h2
    exact Option.noConfusion h2
  refine ⟨rfl, ?_, ?_⟩
  · intro hcond
    simp only [ScalarVariables.Scalars.meet_scope_end, h1, h2]
    rw [if_pos hcond]
  · intro hcond
    have hlookup : (ScalarVariables.Scalars.meet_scope_end s).local_values name =
        some values := by
      simp only [ScalarVariables.Scalars.meet_scope_end, h1, h2]
      rw [if_neg hcond]
      simp [List.isEmpty_iff, hne]
    refine ⟨hlookup, ?_⟩
    simp only [ScalarVariables.Scalars.get_value, hlookup, h2]

/-- C4 witness: a cell set at depth zero survives a scope end from
depth 1 and is returned by the subsequent lookup. -/
theorem c4_meet_scope_end_amended_witness :
    (ScalarVariables.Scalars.meet_scope_end
        ⟨fun n => if n = "y" then some [⟨0, ⟨.null, ⟨"", "", "", ""⟩, 0⟩⟩] else none,
          fun _ => none, 1⟩).local_values "y" =
        some [⟨0, ⟨.null, ⟨"", "", "", ""⟩, 0⟩⟩] ∧
    ScalarVariables.Scalars.get_value
        (ScalarVariables.Scalars.meet_scope_end
          ⟨fun n => if n = "y" then some [⟨0, ⟨.null, ⟨"", "", "", ""⟩, 0⟩⟩] else none,
            fun _ => none, 1⟩) "y" =
      .ok ⟨.null, ⟨"", "", "", ""⟩, 0⟩ :=
  (c4_meet_scope_end_amended
    ⟨fun n => if n = "y" then some [⟨0, ⟨.null, ⟨"", "", "", ""⟩, 0⟩⟩] else none,
      fun _ => none, 1⟩ "y" [⟨0, ⟨.null, ⟨"", "", "", ""⟩, 0⟩⟩]
    ⟨0, ⟨.null, ⟨"", "", "", ""⟩, 0⟩⟩ (by simp) rfl).2.2 (by simp)

/-- Updating a map and reading the updated name back yields the new
binding. -/
theorem ScalarVariables.updateMap_self {α : Type} (m : String → Option α) (name : String)
    (v : Option α) : ScalarVariables.updateMap m name v name = v := by
  simp [ScalarVariables.updateMap]

/-- C6: `set_value` at global scope (fold depth 0) on an already-defined
name fails with the uncatchable multiple-variables error and leaves the
environment unchanged; inside a fold it overwrites the deepest cell
when that cell was set at the current depth and reports true, and
otherwise adds a new cell at the current depth and reports false; in
every successful case the subsequent lookup returns the new value. -/
theorem c6_set_value :
    (∀ (s : ScalarVariables.Scalars) (name : String) (v : ScalarVariables.ValueAggregate)
        (values : List ScalarVariables.SparseCell),
        s.fold_block_id = 0 → s.local_values name = some values →
        ScalarVariables.Scalars.set_value s name v =
          (s, .error (.uncatchable (.multipleVariablesFound name)))) ∧
    (∀ (s : ScalarVariables.Scalars) (name : String) (v : ScalarVariables.ValueAggregate)
        (values : List ScalarVariables.SparseCell) (cell : ScalarVariables.SparseCell),
        0 < s.fold_block_id → s.local_values name = some values →
        values.getLast? = some cell → cell.position = s.fold_block_id →
        (ScalarVariables.Scalars.set_value s name v).2 = .ok true ∧
        ((ScalarVariables.Scalars.set_value s name v).1.local_values name).map List.length =
          some values.length ∧
        ScalarVariables.Scalars.get_value
          (ScalarVariables.Scalars.set_value s name v).1 name = .ok v) ∧
    (∀ (s : ScalarVariables.Scalars) (name : String) (v : ScalarVariables.ValueAggregate)
        (values : List ScalarVariables.SparseCell) (cell : ScalarVariables.SparseCell),
        0 < s.fold_block_id → s.local_values name = some values →
        values.getLast? = some cell → cell.position ≠ s.fold_block_id →
        (ScalarVariables.Scalars.set_value s name v).2 = .ok false ∧
        ((ScalarVariables.Scalars.set_value s name v).1.local_values name).map List.length =
          some (values.length + 1) ∧
        ScalarVariables.Scalars.get_value
          (ScalarVariables.Scalars.set_value s name v).1 name = .ok v) ∧
    (∀ (s : ScalarVariables.Scalars) (name : String) (v : ScalarVariables.ValueAggregate),
        s.local_values name = none →
        (ScalarVariables.Scalars.set_value s name v).2 = .ok false ∧
        ScalarVariables.Scalars.get_value
          (ScalarVariables.Scalars.set_value s name v).1 name = .ok v) := by
  refine ⟨?_, ?_, ?_, ?_⟩
  · intro s name v values h0 h1
    simp [ScalarVariables.Scalars.set_value, ScalarVariables.Scalars.shadowing_allowed, h0, h1]
  · intro s name v values cell h0 h1 h2 h3
    have hd : s.fold_block_id ≠ 0 := Nat.pos_iff_ne_zero.mp h0
    have hne : values ≠ [] := by
      intro hv
      rw [hv] at h2
      exact Option.noConfusion h2
    have hlen : values.length ≠ 0 := by simpa using hne
    have hred : ScalarVariables.Scalars.set_value s name v =
        ({ s with local_values := (ScalarVariables.updateMap s.local_values name
              (some (values.dropLast ++ [⟨s.fold_block_id, v⟩]))) }, .ok true) := by
      simp [ScalarVariables.Scalars.set_value, ScalarVariables.Scalars.shadowing_allowed,
        hd, h1, h2, h3]
    rw [hred]
    refine ⟨rfl, ?_, ?_⟩
    · have hlen2 : (values.dropLast ++
          [(⟨s.fold_block_id, v⟩ : ScalarVariables.SparseCell)]).length = values.length := by
        rw [List.length_append, List.length_dropLast, List.length_singleton]
        omega
      simp [ScalarVariables.updateMap_self, hlen2]
    · simp [ScalarVariables.Scalars.get_value, ScalarVariables.updateMap_self]
  · intro s name v values cell h0 h1 h2 h3
    have hd : s.fold_block_id ≠ 0 := Nat.pos_iff_ne_zero.mp h0
    have hred : ScalarVariables.Scalars.set_value s name v =
        ({ s with local_values := (ScalarVariables.updateMap s.local_values name
              (some (values ++ [⟨s.fold_block_id, v⟩]))) }, .ok false) := by
      simp [ScalarVariables.Scalars.set_value, ScalarVariables.Scalars.shadowing_allowed,
        hd, h1, h2, h3]
    rw [hred]
    refine ⟨rfl, ?_, ?_⟩
    · simp [ScalarVariables.updateMap_self]
    · simp [ScalarVariables.Scalars.get_value, ScalarVariables.updateMap_self]
  · intro s name v h1
    constructor
    · simp [ScalarVariables.Scalars.set_value, h1]
    · simp [ScalarVariables.Scalars.set_value, h1, ScalarVariables.Scalars.get_value,
        ScalarVariables.updateMap_self]

/-- C6 witness: at global depth with x already defined, redefining x
fails with the uncatchable multiple-variables error and the state is
returned unchanged. -/
theorem c6_set_value_witness :
    ScalarVariables.Scalars.set_value
        ⟨fun n => if n = "x" then some [⟨0, ⟨.null, ⟨"", "", "", ""⟩, 0⟩⟩] else none,
          fun _ => none, 0⟩ "x" ⟨.bool true, ⟨"", "", "", ""⟩, 1⟩ =
      (⟨fun n => if n = "x" then some [⟨0, ⟨.null, ⟨"", "", "", ""⟩, 0⟩⟩] else none,
          fun _ => none, 0⟩,
        .error (.uncatchable (.multipleVariablesFound "x"))) :=
  c6_set_value.1
    ⟨fun n => if n = "x" then some [⟨0, ⟨.null, ⟨"", "", "", ""⟩, 0⟩⟩] else none,
      fun _ => none, 0⟩ "x" ⟨.bool true, ⟨"", "", "", ""⟩, 1⟩
    [⟨0, ⟨.null, ⟨"", "", "", ""⟩, 0⟩⟩] rfl (by simp)

/-- C10: provided the iterator name is not already bound (so the
early-return of `set_iterable_value` is not taken), the fold helper
removes the iterator binding and restores the fold depth to its
pre-fold value after the body runs, for every body that keeps the depth
balanced, whether the body succeeded or failed. -/
theorem c10_fold_cleanup
    (iterator : String) (fold_state : ScalarVariables.FoldState)
    (body : ScalarVariables.Scalars →
      ScalarVariables.Scalars × Except ExecErrors.ExecutionError Unit)
    (s : ScalarVariables.Scalars)
    (hfree : s.iterable_values iterator = none)
    (hbalanced : ∀ t, ((body t).1).fold_block_id = t.fold_block_id) :
    (FoldScalarRs.fold iterator fold_state body s).1.iterable_values iterator = none ∧
    (FoldScalarRs.fold iterator fold_state body s).1.fold_block_id = s.fold_block_id := by
  simp only [FoldScalarRs.fold, ScalarVariables.Scalars.set_iterable_value,
    ScalarVariables.Scalars.meet_scope_start, hfree]
  constructor
  · simp [ScalarVariables.Scalars.meet_scope_end,
      ScalarVariables.Scalars.remove_iterable_value, ScalarVariables.updateMap_self]
  · simp [ScalarVariables.Scalars.meet_scope_end,
      ScalarVariables.Scalars.remove_iterable_value, hbalanced]

/-- C10 witness: an always-failing body leaves no iterator binding and
the original depth behind. -/
theorem c10_fold_cleanup_witness :
    (FoldScalarRs.fold "i" ⟨[], 0⟩
        (fun t => (t, .error (.catchable (.variableNotFound "w"))))
        ⟨fun _ => none, fun _ => none, 0⟩).1.iterable_values "i" = none ∧
    (FoldScalarRs.fold "i" ⟨[], 0⟩
        (fun t => (t, .error (.catchable (.variableNotFound "w"))))
        ⟨fun _ => none, fun _ => none, 0⟩).1.fold_block_id = 0 :=
  c10_fold_cleanup "i" ⟨[], 0⟩
    (fun t => (t, .error (.catchable (.variableNotFound "w"))))
    ⟨fun _ => none, fun _ => none, 0⟩ rfl (fun _ => rfl)

/-- C3 counterexample: on the named peer with no stream s in the
environment, the canon instruction with no prior merged state does not
succeed with an empty canon stream: it fails with the catchable
streams-for-canon-not-found error and leaves the context and trace
untouched. -/
theorem c3_counterexample :
    CanonRs.handleUnseenCanon ⟨"p1", "s", "cs"⟩
        ⟨"p1", fun _ => none, fun _ => none, true, []⟩ [] =
      (⟨"p1", fun _ => none, fun _ => none, true, []⟩, [],
        .error (.catchable (.streamsForCanonNotFound "s"))) := by
  rfl

/-- C3 amended: for a canon instruction with no prior merged canon
state executed on the peer named by the instruction, a stream missing
from the environment is a catchable streams-for-canon-not-found error
(not an empty snapshot); when the stream is present it is frozen into a
canon stream stored under the canon name and the element positions are
recorded in the trace. -/
theorem c3_handle_unseen_canon_amended
    (ast_canon : CanonRs.AstCanon) (exec_ctx : CanonRs.ExecutionCtx)
    (canon_trace : List (List Nat))
    (hpeer : exec_ctx.current_peer_id = ast_canon.peer_pk) :
    (exec_ctx.streams ast_canon.stream_name = none →
        CanonRs.handleUnseenCanon ast_canon exec_ctx canon_trace =
          (exec_ctx, canon_trace,
            .error (.catchable (.streamsForCanonNotFound ast_canon.stream_name)))) ∧
    (∀ stream, exec_ctx.streams ast_canon.stream_name = some stream →
        CanonRs.handleUnseenCanon ast_canon exec_ctx canon_trace =
          ({ exec_ctx with
              canon_streams := (ScalarVariables.updateMap exec_ctx.canon_streams
                ast_canon.canon_stream_name
                (some (CanonRs.CanonStream.from_stream stream))) },
            canon_trace ++ [stream.iterLast.map (·.trace_pos)], .ok ())) := by
  constructor
  · intro habsent
    simp [CanonRs.handleUnseenCanon, hpeer, CanonRs.createCanonStreamFromName, habsent]
  · intro stream hpresent
    simp [CanonRs.handleUnseenCanon, hpeer, CanonRs.createCanonStreamFromName, hpresent,
      CanonRs.epilog]

/-- C3 witness: on the named peer with the stream s present but holding
no generations, the canon instruction succeeds and stores an empty
canon stream. -/
theorem c3_handle_unseen_canon_amended_witness :
    CanonRs.handleUnseenCanon ⟨"p", "s", "cs"⟩
        ⟨"p", fun n => if n = "s" then some ⟨[]⟩ else none, fun _ => none, true, []⟩ [] =
      (⟨"p", fun n => if n = "s" then some ⟨[]⟩ else none,
          (ScalarVariables.updateMap (fun _ => none) "cs"
            (some (CanonRs.CanonStream.from_stream ⟨[]⟩))), true, []⟩,
        [([] : List Nat)], .ok ()) := by
  have h := (c3_handle_unseen_canon_amended ⟨"p", "s", "cs"⟩
      ⟨"p", fun n => if n = "s" then some ⟨[]⟩ else none, fun _ => none, true, []⟩ [] rfl).2
      ⟨[]⟩ (by simp)
  simpa [CanonRs.Stream.iterLast] using h

/-- C7: every error the joinable classification accepts is also
accepted by the catchable classification, and the joinable errors are
exactly the variable-not-found, stream-json-path and
empty-stream-json-path errors. -/
theorem c7_joinable_subset_of_catchable (e : ErrorsRs.ExecutionError) :
    (e.is_joinable = true → e.is_catchable = true) ∧
    (e.is_joinable = true ↔
      ((∃ name, e = .variableNotFound name) ∨
       (∃ stream path err, e = .streamJsonPathError stream path err) ∨
       (∃ path, e = .emptyStreamJsonPathError path))) := by
  cases e <;>
    simp [ErrorsRs.ExecutionError.is_joinable, ErrorsRs.ExecutionError.is_catchable]

/-- C7 witness: the variable-not-found error is joinable and hence
catchable. -/
theorem c7_joinable_subset_of_catchable_witness :
    ErrorsRs.ExecutionError.is_catchable (.variableNotFound "x") = true :=
  (c7_joinable_subset_of_catchable (.variableNotFound "x")).1 rfl

/-- Bridge between the call-value equality test and propositional
equality. -/
theorem CallMerger.valueBeq_eq_true_iff (a b : TraceData.Value) :
    CallMerger.valueBeq a b = true ↔ a = b := by
  cases a <;> cases b <;>
    simp [CallMerger.valueBeq, JValue.beq_eq_true_iff, and_assoc]

/-- C5: merging two executed call values yields the previous value
exactly when the two sides are compatible, meaning equal scalar content
or stream values with equal CIDs; otherwise it fails with the
incompatible-call-results merge error, which the catchable
classification rejects as a trace error; a successful merge only ever
returns the previous value. -/
theorem c5_merge_executed (prev_value current_value : TraceData.Value) :
    (CallMerger.mergeExecuted prev_value current_value = .ok (.executed prev_value) ∨
     CallMerger.mergeExecuted prev_value current_value =
       .error (CallMerger.notEqualValues prev_value current_value)) ∧
    (CallMerger.mergeExecuted prev_value current_value = .ok (.executed prev_value) ↔
      ((∃ v, prev_value = .scalar v ∧ current_value = .scalar v) ∨
       (∃ v1 v2 c g1 g2,
          prev_value = .stream v1 c g1 ∧ current_value = .stream v2 c g2))) ∧
    (∀ r, CallMerger.mergeExecuted prev_value current_value = .ok r →
        r = .executed prev_value) ∧
    ErrorsRs.ExecutionError.is_catchable
      (.traceError (.mergeError
        (CallMerger.notEqualValues prev_value current_value))) = false := by
  cases prev_value with
  | scalar pv =>
      cases current_value with
      | scalar cv =>
          by_cases h : pv = cv
          · subst h
            have hm : CallMerger.mergeExecuted (.scalar pv) (.scalar pv) =
                .ok (.executed (.scalar pv)) := by
              simp [CallMerger.mergeExecuted, CallMerger.areScalarsEqual,
                CallMerger.valueBeq, JValue.beq_refl]
            refine ⟨Or.inl hm, ⟨fun _ => Or.inl ⟨pv, rfl, rfl⟩, fun _ => hm⟩, ?_, rfl⟩
            intro r hr
            rw [hm] at hr
            injection hr with hr2
            rw [hr2]
          · have hb : JValue.beq pv cv = false := by
              cases hb2 : JValue.beq pv cv
              · rfl
              · exact absurd (JValue.eq_of_beq pv cv hb2) h
            have hm : CallMerger.mergeExecuted (.scalar pv) (.scalar cv) =
                .error (CallMerger.notEqualValues (.scalar pv) (.scalar cv)) := by
              simp [CallMerger.mergeExecuted, CallMerger.areScalarsEqual,
                CallMerger.valueBeq, hb]
            refine ⟨Or.inr hm, ⟨?_, ?_⟩, ?_, rfl⟩
            · intro hok
              rw [hm] at hok
              exact Except.noConfusion hok
            · rintro (⟨v, h1, h2⟩ | ⟨v1, v2, c, g1, g2, h1, h2⟩)
              · injection h1 with e1
                injection h2 with e2
                exact absurd (e1.trans e2.symm) h
              · exact TraceData.Value.noConfusion h1
            · intro r hr
              rw [hm] at hr
              exact Except.noConfusion hr
      | stream cv cc cg =>
          have hm : CallMerger.mergeExecuted (.scalar pv) (.stream cv cc cg) =
              .error (CallMerger.notEqualValues (.scalar pv) (.stream cv cc cg)) := rfl
          refine ⟨Or.inr hm, ⟨?_, ?_⟩, ?_, rfl⟩
          · intro hok
            rw [hm] at hok
            exact Except.noConfusion hok
          · rintro (⟨v, h1, h2⟩ | ⟨v1, v2, c, g1, g2, h1, h2⟩)
            · exact TraceData.Value.noConfusion h2
            · exact TraceData.Value.noConfusion h1
          · intro r hr
            rw [hm] at hr
            exact Except.noConfusion hr
  | stream pv pr pg =>
      cases current_value with
      | scalar cv =>
          have hm : CallMerger.mergeExecuted (.stream pv pr pg) (.scalar cv) =
              .error (CallMerger.notEqualValues (.stream pv pr pg) (.scalar cv)) := rfl
          refine ⟨Or.inr hm, ⟨?_, ?_⟩, ?_, rfl⟩
          · intro hok
            rw [hm] at hok
            exact Except.noConfusion hok
          · rintro (⟨v, h1, h2⟩ | ⟨v1, v2, c, g1, g2, h1, h2⟩)
            · exact TraceData.Value.noConfusion h1
            · exact TraceData.Value.noConfusion h2
          · intro r hr
            rw [hm] at hr
            exact Except.noConfusion hr
      | stream cv cc cg =>
          by_cases h : pr = cc
          · subst h
            have hm : CallMerger.mergeExecuted (.stream pv pr pg) (.stream cv pr cg) =
                .ok (.executed (.stream pv pr pg)) := by
              simp [CallMerger.mergeExecuted, CallMerger.areStreamsEqual]
            refine ⟨Or.inl hm,
              ⟨fun _ => Or.inr ⟨pv, cv, pr, pg, cg, rfl, rfl⟩, fun _ => hm⟩, ?_, rfl⟩
            intro r hr
            rw [hm] at hr
            injection hr with hr2
            rw [hr2]
          · have hm : CallMerger.mergeExecuted (.stream pv pr pg) (.stream cv cc cg) =
                .error (CallMerger.notEqualValues (.stream pv pr pg) (.stream cv cc cg)) := by
              simp [CallMerger.mergeExecuted, CallMerger.areStreamsEqual, h]
            refine ⟨Or.inr hm, ⟨?_, ?_⟩, ?_, rfl⟩
            · intro hok
              rw [hm] at hok
              exact Except.noConfusion hok
            · rintro (⟨v, h1, h2⟩ | ⟨v1, v2, c, g1, g2, h1, h2⟩)
              · exact TraceData.Value.noConfusion h1
              · injection h1 with e1 e2 e3
                injection h2 with f1 f2 f3
                exact absurd (e2.trans f2.symm) h
            · intro r hr
              rw [hm] at hr
              exact Except.noConfusion hr

/-- C5 witness: two equal scalar results merge into the previous value;
two stream values with equal CIDs but different generations also merge
into the previous value. -/
theorem c5_merge_executed_witness :
    CallMerger.mergeExecuted (.scalar .null) (.scalar .null) =
      .ok (.executed (.scalar .null)) ∧
    CallMerger.mergeExecuted (.stream .null "cid1" 0) (.stream (.bool true) "cid1" 3) =
      .ok (.executed (.stream .null "cid1" 0)) :=
  ⟨(c5_merge_executed (.scalar .null) (.scalar .null)).2.1.mpr
      (Or.inl ⟨.null, rfl, rfl⟩),
    (c5_merge_executed (.stream .null "cid1" 0) (.stream (.bool true) "cid1" 3)).2.1.mpr
      (Or.inr ⟨.null, .bool true, "cid1", 0, 3, rfl, rfl⟩)⟩

/-- C8: a call-service result string that fails to deserialize produces
the call-service-failed state with code `i32::MAX` and the
deserialization message appended to the trace, and raises the catchable
local-service error with the same code and message. -/
theorem c8_try_to_service_result (parse : String → Except String JValue)
    (service_result : PrevResultHandler.CallServiceResult)
    (trace : List TraceData.ExecutedState) (e : String)
    (hfail : parse service_result.result = .error e) :
    PrevResultHandler.tryToServiceResult parse service_result trace =
      (trace ++ [.call (.callServiceFailed PrevResultHandler.i32Max
          (PrevResultHandler.deserializationErrorMessage service_result e))],
        .error (.catchable (.localServiceError PrevResultHandler.i32Max
          (PrevResultHandler.deserializationErrorMessage service_result e)))) := by
  simp [PrevResultHandler.tryToServiceResult, hfail]

/-- C8 witness: a parser that rejects the result string yields the
failed call state and the catchable error, both carrying `i32::MAX`. -/
theorem c8_try_to_service_result_witness :
    PrevResultHandler.tryToServiceResult (fun _ => .error "boom") ⟨0, "oops"⟩ [] =
      ([.call (.callServiceFailed PrevResultHandler.i32Max
          (PrevResultHandler.deserializationErrorMessage ⟨0, "oops"⟩ "boom"))],
        .error (.catchable (.localServiceError PrevResultHandler.i32Max
          (PrevResultHandler.deserializationErrorMessage ⟨0, "oops"⟩ "boom")))) := by
  simpa using
    c8_try_to_service_result (fun _ => .error "boom") ⟨0, "oops"⟩ [] "boom" rfl

/-- Association-list lookup distributes over append. -/
theorem CidStoreRs.lookup_append {Val : Type} (m m2 : List (String × Val)) (k : String) :
    List.lookup k (m ++ m2) = ((List.lookup k m).elim (List.lookup k m2) some) := by
  induction m with
  | nil => rfl
  | cons p rest ih =>
      obtain ⟨k0, v0⟩ := p
      cases hk : (k == k0) <;> simp [List.lookup, hk, ih]

/-- Replacing the bindings of a key rewrites its lookup result. -/
theorem CidStoreRs.lookup_map_replace {Val : Type} (m : List (String × Val))
    (k : String) (v : Val) :
    List.lookup k (m.map fun p => if p.1 = k then (k, v) else p) =
      (List.lookup k m).map (fun _ => v) := by
  induction m with
  | nil => rfl
  | cons p rest ih =>
      obtain ⟨k0, v0⟩ := p
      rw [List.map_cons]
      by_cases h : k0 = k
      · rw [if_pos h]
        have hk : (k == k0) = true := by simp [h]
        simp [List.lookup, hk]
      · rw [if_neg h]
        have hk : (k == k0) = false := by
          simp only [beq_eq_false_iff_ne, ne_eq]
          exact fun hc => h hc.symm
        simp [List.lookup, hk, ih]

/-- Replacing the bindings of one key leaves other lookups unchanged. -/
theorem CidStoreRs.lookup_map_replace_ne {Val : Type} (m : List (String × Val))
    (k k2 : String) (v : Val) (hne : k2 ≠ k) :
    List.lookup k2 (m.map fun p => if p.1 = k then (k, v) else p) =
      List.lookup k2 m := by
  induction m with
  | nil => rfl
  | cons p rest ih =>
      obtain ⟨k0, v0⟩ := p
      rw [List.map_cons]
      by_cases h : k0 = k
      · rw [if_pos h]
        have hk2 : (k2 == k) = false := by
          simp only [beq_eq_false_iff_ne, ne_eq]
          exact hne
        have hk0 : (k2 == k0) = false := by
          simp only [beq_eq_false_iff_ne, ne_eq]
          rw [h]
          exact hne
        simp [List.lookup, hk2, hk0, ih]
      · rw [if_neg h]
        cases hk : (k2 == k0) <;> simp [List.lookup, hk, ih]

/-- Looking the inserted key up after a hash-map insert finds the new
value. -/
theorem CidStoreRs.lookup_hashInsert_self {Val : Type} (m : List (String × Val))
    (k : String) (v : Val) : List.lookup k (CidStoreRs.hashInsert m k v) = some v := by
  unfold CidStoreRs.hashInsert
  split
  · rename_i hsome
    rw [CidStoreRs.lookup_map_replace]
    obtain ⟨w, hw⟩ := Option.isSome_iff_exists.mp hsome
    rw [hw]
    rfl
  · rename_i hnone
    rw [CidStoreRs.lookup_append]
    rw [Option.not_isSome_iff_eq_none.mp hnone]
    simp [List.lookup]

/-- Looking a different key up after a hash-map insert is unchanged. -/
theorem CidStoreRs.lookup_hashInsert_ne {Val : Type} (m : List (String × Val))
    (k k2 : String) (v : Val) (hne : k2 ≠ k) :
    List.lookup k2 (CidStoreRs.hashInsert m k v) = List.lookup k2 m := by
  unfold CidStoreRs.hashInsert
  split
  · exact CidStoreRs.lookup_map_replace_ne m k k2 v hne
  · rw [CidStoreRs.lookup_append]
    cases hm : List.lookup k2 m with
    | none =>
        have hk : (k2 == k) = false := by
          simp only [beq_eq_false_iff_ne, ne_eq]
          exact hne
        simp [List.lookup, hk]
    | some w => rfl

/-- A key that is not among the keys of an association list has no
binding. -/
theorem CidStoreRs.lookup_eq_none_of_not_mem {Val : Type} (m : List (String × Val))
    (k : String) (h : k ∉ m.map Prod.fst) : List.lookup k m = none := by
  induction m with
  | nil => rfl
  | cons p rest ih =>
      obtain ⟨k0, v0⟩ := p
      simp only [List.map_cons, List.mem_cons, not_or] at h
      have hk : (k == k0) = false := by
        simp only [beq_eq_false_iff_ne, ne_eq]
        exact h.1
      simp [List.lookup, hk, ih h.2]

/-- C9: merging two CID stores resolves, at every CID, to the current
store when the CID is bound there and to the previous store otherwise;
in particular a lookup fails exactly when the CID is absent from both
stores, and is found whenever either store binds it. -/
theorem c9_from_cid_stores {Val : Type}
    (prev_cid_map current_cid_map : CidStoreRs.CidStore Val) (cid : String)
    (hnodup : (current_cid_map.map Prod.fst).Nodup) :
    (CidStoreRs.CidTracker.from_cid_stores prev_cid_map current_cid_map).get cid =
      ((CidStoreRs.CidStore.get current_cid_map cid).elim
        (CidStoreRs.CidStore.get prev_cid_map cid) some) ∧
    ((CidStoreRs.CidTracker.from_cid_stores prev_cid_map current_cid_map).get cid = none ↔
      (CidStoreRs.CidStore.get current_cid_map cid = none ∧
        CidStoreRs.CidStore.get prev_cid_map cid = none)) := by
  have main : ∀ (cur : List (String × Val)), (cur.map Prod.fst).Nodup →
      ∀ (prev : List (String × Val)),
      List.lookup cid (cur.foldl (fun cids p => CidStoreRs.hashInsert cids p.1 p.2) prev) =
        ((List.lookup cid cur).elim (List.lookup cid prev) some) := by
    intro cur
    induction cur with
    | nil =>
        intro _ prev
        rfl
    | cons p rest ih =>
        intro hnd prev
        obtain ⟨k0, v0⟩ := p
        simp only [List.map_cons, List.nodup_cons] at hnd
        simp only [List.foldl_cons]
        rw [ih hnd.2 (CidStoreRs.hashInsert prev k0 v0)]
        by_cases h : cid = k0
        · rw [CidStoreRs.lookup_eq_none_of_not_mem rest cid (h ▸ hnd.1)]
          rw [h, CidStoreRs.lookup_hashInsert_self]
          have hk : (cid == k0) = true := by simp [h]
          simp [List.lookup, hk]
        · rw [CidStoreRs.lookup_hashInsert_ne prev k0 cid v0 h]
          have hk : (cid == k0) = false := by
            simp only [beq_eq_false_iff_ne, ne_eq]
            exact h
          simp [List.lookup, hk]
  have hmain := main current_cid_map hnodup prev_cid_map
  constructor
  · exact hmain
  · simp only [CidStoreRs.CidTracker.from_cid_stores, CidStoreRs.CidTracker.get,
      CidStoreRs.CidStore.get]
    rw [hmain]
    cases List.lookup cid current_cid_map with
    | none => simp
    | some v => simp

/-- C9 witness: with b bound in both stores, the merged tracker returns
the current value for b, still resolves a from the previous store, and
returns none for an unbound CID. -/
theorem c9_from_cid_stores_witness :
    (CidStoreRs.CidTracker.from_cid_stores
        [("a", 1), ("b", 2)] [("b", 3)]).get "b" = some 3 ∧
    (CidStoreRs.CidTracker.from_cid_stores
        [("a", 1), ("b", 2)] [("b", 3)]).get "a" = some 1 ∧
    (CidStoreRs.CidTracker.from_cid_stores
        ([("a", 1), ("b", 2)] : CidStoreRs.CidStore Nat) [("b", 3)]).get "zz" = none := by
  refine ⟨?_, ?_, ?_⟩
  · have h := (c9_from_cid_stores [("a", 1), ("b", 2)] [("b", 3)] "b" (by simp)).1
    simpa [CidStoreRs.CidStore.get, List.lookup] using h
  · have h := (c9_from_cid_stores [("a", 1), ("b", 2)] [("b", 3)] "a" (by simp)).1
    simpa [CidStoreRs.CidStore.get, List.lookup] using h
  · have h := (c9_from_cid_stores
        ([("a", 1), ("b", 2)] : CidStoreRs.CidStore Nat) [("b", 3)] "zz" (by simp)).2
    exact h.mpr (by simp [CidStoreRs.CidStore.get, List.lookup])

/-- C1 witness for the amended statement: a previous Ap recording
generation 7 merges successfully against a current state that is not
even an Ap, producing the previous generation. -/
theorem c1_ap_merger_amended_witness :
    ApMerger.tryMergeNextStateAsAp (some (.ap ⟨[7]⟩))
        (some (.call (.requestSentBy "p"))) = .ok (.apResult (some 7)) :=
  (c1_ap_merger_amended.1 ⟨[7]⟩ (.call (.requestSentBy "p"))).trans
    (c1_ap_merger_amended.2.2.2.2.1 7)
